import Mathlib

/-!
# Verification of the Runveer virtual-environment lifecycle manager

A shallow embedding of the core of `r2.py`: the script analyzer
(`ScriptAnalyzer`), the dependency manager (`DependencyManager`:
fingerprinting, requirements generation, virtual-environment lifecycle) and
the script runner (`ScriptRunner`: execution supervision and the
missing-module repair cycle).

External effects (the filesystem, `fcntl` advisory locks, subprocess
outcomes) are modelled by an explicit `World` state carrying, per
environment directory, the observable facts the Python code branches on
(stored fingerprint, lock status, owner, executable presence, removability)
together with oracles for the outcomes of external commands.
-/

set_option autoImplicit false

namespace Runveer

/-! ## Script analysis (`ScriptAnalyzer`)

A script is modelled by whether it can be read, the set of top-level module
names its text yields (the result of the AST walk, or of the regex fallback
on a syntax error — the extraction itself is opaque text processing), and
whether its text matches the streamlit-import heuristic of
`is_streamlit_app`. -/

structure Script where
  /-- Does `open(script_path).read()` succeed? -/
  readable : Bool
  /-- The top-level module names extraction yields on the readable text. -/
  imports : List String
  /-- Does the text match the streamlit import-line patterns? -/
  streamlitSource : Bool
deriving Repr, DecidableEq

/-- `ScriptAnalyzer.extract_imports`: on a read failure the exception is
caught, a warning is printed, and the empty set is returned; otherwise the
text is parsed (AST walk, with a regex fallback on `SyntaxError`). -/
def extract_imports (s : Script) : List String :=
  if s.readable then s.imports else []

/-- `ScriptAnalyzer.is_streamlit_app`: scans the text for streamlit import
lines; any exception (unreadable file) yields `False`. -/
def is_streamlit_app (s : Script) : Bool :=
  if s.readable then s.streamlitSource else false

/-- The fixed allow-list of project-local modules (`local_modules`). -/
def localModules : List String := ["db_utils"]

/-- Modelled from the spec: the platform-provided enumeration of

standard-library module names (`sys.stdlib_module_names`), an external
platform facility, modelled as a fixed representative list. -/
def stdlibModules : List String :=
  ["os", "re", "ast", "sys", "venv", "subprocess", "shutil", "hashlib",
   "socket", "time", "stat", "errno", "fcntl", "pathlib", "typing", "json",
   "math", "collections", "itertools", "functools", "io", "abc", "datetime",
   "random", "string", "threading", "logging", "argparse", "csv", "glob",
   "tempfile", "unittest", "urllib", "http", "email", "base64", "struct",
   "pickle", "copy", "enum", "dataclasses", "asyncio", "signal", "select",
   "platform", "getpass", "queue", "sqlite3", "distutils"]

/-- `ScriptAnalyzer.is_stdlib_module`: membership in the platform's
standard-library name enumeration. -/
def is_stdlib_module (m : String) : Bool :=
  stdlibModules.contains m

/-- `ScriptAnalyzer.has_external_dependencies`: some import is neither
local nor standard-library (with a redundant extra check for `streamlit`). -/
def has_external_dependencies (s : Script) : Bool :=
  let allImports := extract_imports s
  (allImports.any fun imp =>
    !(localModules.contains imp) && !(is_stdlib_module imp))
  || allImports.contains "streamlit"

/-! ## The environment and world state -/

/-- One environment directory (`<envName>/`) as the Python code observes
it: the stamped `.project_fingerprint` contents (`none` when the file is
absent or unreadable), whether the `.lock` sentinel's advisory lock is held
by another process, whether the lock/pid files can be unlinked, the owning
uid, the presence of the interpreter and installer executables, whether the
interpreter's `--version` probe exits zero within the timeout, and whether
a recursive delete (with the chmod retry) can succeed. -/
structure Env where
  storedFingerprint : Option String
  lockHeld : Bool
  lockFilesRemovable : Bool
  ownerUid : Nat
  pythonExists : Bool
  pipExists : Bool
  versionProbeOk : Bool
  removable : Bool
deriving Repr, DecidableEq

/-- The mutable world: the environment directories on disk (an association
list keyed by environment name), the current process uid, the oracle for
the outcome of the `python -m venv` creation subprocess, the current unix
timestamp, a log of every creation-command invocation (by target name), the
`requirements.txt` contents (`none` when absent), and a log of installer
invocations. -/
structure World where
  envs : List (String × Env)
  currentUid : Nat
  createOk : Bool
  now : Nat
  createCalls : List String
  reqFile : Option String
  installLog : List String
deriving Repr, DecidableEq

/-- Look up the environment directory named `n`. -/
def envAt (l : List (String × Env)) (n : String) : Option Env :=
  (l.find? fun p => p.1 == n).map (·.2)

/-- Create or replace the environment directory named `n`. -/
def setEnv (l : List (String × Env)) (n : String) (e : Env) :
    List (String × Env) :=
  (n, e) :: l.filter fun p => p.1 != n

/-- Recursively delete the environment directory named `n`. -/
def delEnv (l : List (String × Env)) (n : String) : List (String × Env) :=
  l.filter fun p => p.1 != n

/-! ## `DependencyManager`: environment lifecycle -/

/-- `DependencyManager._is_venv_valid`: the stored `.project_fingerprint`
equals the current fingerprint, the interpreter and installer executables
exist, and the interpreter version probe exits zero. A missing directory
has no fingerprint file, so it is never valid. -/
def is_venv_valid (e : Option Env) (fp : String) : Bool :=
  match e with
  | none => false
  | some e =>
    (e.storedFingerprint == some fp) && e.pythonExists && e.pipExists
      && e.versionProbeOk

/-- `DependencyManager._is_venv_locked`: a non-blocking `flock` attempt on
the `.lock` sentinel; failure to acquire (or to open the sentinel at all)
means "locked". -/
def is_venv_locked (e : Env) : Bool :=
  e.lockHeld

/-- `DependencyManager._force_unlock_venv`: unlink the `.lock` sentinel and
every `*.lock` / `*.pid` glob match (per-file failures inside the glob loop
are swallowed); returns `False` exactly when the sentinel unlink (or the
directory scan) raises. -/
def force_unlock_ok (e : Env) : Bool :=
  e.lockFilesRemovable

/-- The environment after a successful `_force_unlock_venv`: the sentinel
is gone, so a fresh lock attempt succeeds. -/
def clearLocks (e : Env) : Env :=
  { e with lockHeld := false }

/-- `DependencyManager._is_venv_owned_by_another_user`: `False` for a
missing directory, else compare `st_uid` with `os.getuid()`. -/
def is_owned_by_another (w : World) (n : String) : Bool :=
  match envAt w.envs n with
  | none => false
  | some e => e.ownerUid != w.currentUid

/-- `DependencyManager._force_remove_venv`: `True` immediately for a
missing directory; otherwise `shutil.rmtree`, retried once after chmod-ing
everything writable on a `PermissionError`. Returns the updated world and
the success flag. -/
def force_remove_venv (w : World) (n : String) : World × Bool :=
  match envAt w.envs n with
  | none => (w, true)
  | some e =>
    if e.removable then ({ w with envs := delEnv w.envs n }, true)
    else (w, false)

/-- A successfully created environment: `python -m venv <name> --copies`
followed by `_set_venv_fingerprint` stamping the current fingerprint. The
fresh environment is owned by the current user, unlocked, with working
executables. -/
def freshEnv (uid : Nat) (fp : String) : Env :=
  { storedFingerprint := some fp
    lockHeld := false
    lockFilesRemovable := true
    ownerUid := uid
    pythonExists := true
    pipExists := true
    versionProbeOk := true
    removable := true }

/-- `DependencyManager._create_new_venv`: invoke the creation subprocess
(logged in `createCalls`); on a non-zero exit return `None` with no further
attempt, on success stamp the fingerprint and return the new path. -/
def create_new_venv (w : World) (name fp : String) : World × Option String :=
  let w1 := { w with createCalls := w.createCalls ++ [name] }
  if w.createOk then
    ({ w1 with envs := setEnv w1.envs name (freshEnv w.currentUid fp) },
     some name)
  else (w1, none)

/-- The timestamp-suffixed fallback name `f"{venv_name}_{int(time.time())}"`. -/
def fallbackName (name : String) (now : Nat) : String :=
  name ++ "_" ++ toString now

/-- The validity stage of `DependencyManager.setup_venv` (lines 457–465):
reuse a valid environment, otherwise force-remove and rebuild under the
original name, falling back to a timestamp-suffixed name when removal
fails. -/
def setup_venv_validity (w : World) (name fp : String) :
    World × Option String :=
  if is_venv_valid (envAt w.envs name) fp then (w, some name)
  else
    match force_remove_venv w name with
    | (w1, true) => create_new_venv w1 name fp
    | (w1, false) => create_new_venv w1 (fallbackName name w1.now) fp

/-- The ownership stage of `DependencyManager.setup_venv` (lines 452–455):
an environment owned by another user is force-removed (falling back to a
timestamp-suffixed name when removal fails) before the validity check. -/
def setup_venv_owner (w : World) (name fp : String) : World × Option String :=
  if is_owned_by_another w name then
    match force_remove_venv w name with
    | (w1, true) => setup_venv_validity w1 name fp
    | (w1, false) => create_new_venv w1 (fallbackName name w1.now) fp
  else setup_venv_validity w name fp

/-- `DependencyManager.setup_venv`: create or reuse an environment. An
absent directory goes straight to creation; an existing one passes the lock
check (with forced unlock repair, falling back to a timestamp-suffixed name
when the repair raises), the ownership check, and the validity check. -/
def setup_venv (w : World) (name fp : String) : World × Option String :=
  match envAt w.envs name with
  | none => create_new_venv w name fp
  | some e =>
    if is_venv_locked e then
      if force_unlock_ok e then
        setup_venv_owner
          { w with envs := setEnv w.envs name (clearLocks e) } name fp
      else create_new_venv w (fallbackName name w.now) fp
    else setup_venv_owner w name fp

/-! ## `DependencyManager`: requirements generation -/

/-- Python's string ordering (`sorted`), lexicographic by code point, on
underlying character lists. Lean's built-in `String` order decides via the
byte-iterator function `String.ltb`, which does not reduce in the kernel,
so the embedding uses this equivalent executable comparison. -/
def charListLe : List Char → List Char → Bool
  | [], _ => true
  | _ :: _, [] => false
  | a :: as, b :: bs => if a = b then charListLe as bs else decide (a < b)

/-- Python's `sorted` comparison on strings. -/
def strLe (a b : String) : Bool :=
  charListLe a.toList b.toList

/-- The static `dependency_map` from import name to installable package
names. -/
def depMap (imp : String) : Option (List String) :=
  if imp = "talib" then some ["TA-Lib"]
  else if imp = "binance" then some ["python-binance"]
  else if imp = "sklearn" then some ["scikit-learn"]
  else if imp = "cv2" then some ["opencv-python"]
  else if imp = "yaml" then some ["pyyaml"]
  else if imp = "PIL" then some ["pillow"]
  else if imp = "bs4" then some ["beautifulsoup4"]
  else if imp = "requests" then some ["requests"]
  else if imp = "dotenv" then some ["python-dotenv"]
  else if imp = "tqdm" then some ["tqdm"]
  else if imp = "rich" then some ["rich"]
  else if imp = "psycopg2" then some ["psycopg2-binary"]
  else if imp = "streamlit" then some ["streamlit"]
  else none

/-- Addition to the Python `requirements` set: a no-op when the package is
already present. -/
def insertUnique (l : List String) (a : String) : List String :=
  if l.contains a then l else a :: l

/-- One iteration of the requirements loop of
`DependencyManager.generate_requirements`: skip local and standard-library
modules, map through `dependency_map`, default to the import name itself. -/
def addImport (acc : List String) (imp : String) : List String :=
  if localModules.contains imp then acc
  else if is_stdlib_module imp then acc
  else
    match depMap imp with
    | some pkgs => pkgs.foldl insertUnique acc
    | none => insertUnique acc imp

/-- The resolved package set of `DependencyManager.generate_requirements`:
the requirements loop, then the forced `python-dotenv` coupling for
`psycopg2`/`dotenv` imports, then the forced `streamlit` addition. -/
def requirementSet (s : Script) : List String :=
  let allImports := extract_imports s
  let base := allImports.foldl addImport []
  let withDotenv :=
    if allImports.contains "psycopg2" || allImports.contains "dotenv" then
      insertUnique base "python-dotenv"
    else base
  if allImports.contains "streamlit" || is_streamlit_app s then
    insertUnique withDotenv "streamlit"
  else withDotenv

/-- The manifest text: one package per line (`f"{req}\n"` each), in sorted
order. -/
def renderManifest (reqs : List String) : String :=
  String.join (reqs.map fun r => r ++ "\n")

/-- `DependencyManager.generate_requirements`: report `False` (writing
nothing) on an empty resolved set, otherwise overwrite `requirements.txt`
with the sorted package list and report `True`. -/
def generate_requirements (w : World) (s : Script) : World × Bool :=
  let reqs := requirementSet s
  if reqs.isEmpty then (w, false)
  else
    ({ w with
        reqFile := some (renderManifest
          (reqs.insertionSort fun a b => strLe a b = true)) },
     true)

/-- The line filter of `DependencyManager.install_dependencies`: keep lines
that are nonempty after stripping and do not start (unstripped) with `#`,
and strip the kept lines. -/
def parseReqLines (contents : String) : List String :=
  ((contents.splitOn "\n").filter fun line =>
      line.trim != "" && !(line.startsWith "#")).map String.trim

/-- `DependencyManager.install_dependencies`: nothing happens without a
`requirements.txt`; otherwise a pip self-upgrade, a bulk
`pip install -r requirements.txt`, and — when the bulk install exits
non-zero — an individual `pip install` per manifest line. The installer
invocations are logged. -/
def install_dependencies (w : World) (bulkOk : Bool) : World :=
  match w.reqFile with
  | none => w
  | some contents =>
    if bulkOk then
      { w with installLog := w.installLog ++ ["-r requirements.txt"] }
    else
      { w with
          installLog :=
            w.installLog ++ ["-r requirements.txt"]
              ++ parseReqLines contents }

/-! ## `DependencyManager`: project fingerprinting -/

/-- The project directory as `get_project_fingerprint` sees it: the `*.py`
glob result, a reader returning each file's raw bytes (`none` models a read
error, swallowed by the bare `except`), the modification times (present
only to express that the fingerprint never consults them), and the
`requirements.txt` presence and bytes. -/
structure ProjectFS where
  scriptPaths : List String
  readFile : String → Option (List Nat)
  mtimes : String → Nat
  manifestExists : Bool
  readManifest : Option (List Nat)

/-- Modelled from the spec: the cryptographic digest accumulator

(`hashlib.md5`, an external library facility) is modelled as an injective
textual encoding of the accumulated byte stream; the claims under
verification concern only determinism and the content fed to the digest,
not collision resistance. -/
def md5_hexdigest (bytes : List Nat) : String :=
  String.intercalate "," (bytes.map toString)

/-- The manifest contribution to the digest: appended only when
`requirements.txt` exists, with a read error skipped. -/
def manifestBytes (p : ProjectFS) : List Nat :=
  if p.manifestExists then
    match p.readManifest with
    | some bs => bs
    | none => []
  else []

/-- The byte stream `get_project_fingerprint` feeds to the digest: every
readable script's bytes in sorted path order (read errors skipped), then
the manifest bytes. -/
def fingerprintStream (p : ProjectFS) : List Nat :=
  ((p.scriptPaths.insertionSort fun a b => strLe a b = true).filterMap
      p.readFile).flatten
    ++ manifestBytes p

/-- `DependencyManager.get_project_fingerprint`: hash all project scripts
in sorted order, then `requirements.txt` if it exists, and return the hex
digest. -/
def get_project_fingerprint (p : ProjectFS) : String :=
  md5_hexdigest (fingerprintStream p)

/-! ## `ScriptRunner` -/

/-- How `ScriptRunner.run_script` ends up executing the script: inside a
virtual environment, or directly with the system interpreter. -/
inductive ExecMode where
  | withEnv (path : String)
  | direct
deriving Repr, DecidableEq

/-- `ScriptRunner.run_script`: a script with external dependencies gets
requirements generation, fingerprinting, environment setup and dependency
installation, then runs inside the environment; if setup yields no
environment, or the script has no external dependencies, it runs directly. -/
def run_script (w : World) (fp : String) (s : Script) (bulkOk : Bool) :
    World × ExecMode :=
  if has_external_dependencies s then
    let w1 := (generate_requirements w s).1
    match setup_venv w1 "venv" fp with
    | (w2, some p) => (install_dependencies w2 bulkOk, ExecMode.withEnv p)
    | (w2, none) => (w2, ExecMode.direct)
  else (w, ExecMode.direct)

/-! ### The missing-module pattern

`re.search(r"No module named '([^']+)'", text)` and the corresponding
`re.findall`, implemented as a character scan: at each position, try to
match the literal marker, a nonempty run of non-quote characters, and the
closing quote. -/

/-- The single-quote character, `chr(39)`. -/
def quoteChar : Char := Char.ofNat 39

/-- The literal part of the missing-module pattern, up to and including the
opening quote. -/
def missingMarker : List Char := "No module named ".toList ++ [quoteChar]

/-- Try the missing-module pattern anchored at the head of `l`; on success
return the captured module name and the characters after the match. -/
def matchMissingAt (l : List Char) : Option (String × List Char) :=
  if l.take missingMarker.length = missingMarker then
    let rest := l.drop missingMarker.length
    let nm := rest.takeWhile fun c => c != quoteChar
    match rest.drop nm.length with
    | c :: after => if nm.isEmpty then none else
        if c = quoteChar then some (String.mk nm, after) else none
    | [] => none
  else none

/-- `re.search` for the missing-module pattern: the leftmost match's
captured module name. -/
def searchMissing : List Char → Option String
  | [] => none
  | c :: cs =>
    match matchMissingAt (c :: cs) with
    | some (nm, _) => some nm
    | none => searchMissing cs

/-- The scan behind `re.findall` for the missing-module pattern. The
recursion consumes at least one character per step whether or not a match
is found, so `fuel` initialised to the text length (`findAllMissing`)
suffices; the fuel only makes the recursion structural. -/
def findAllMissingAux (fuel : Nat) (l : List Char) : List String :=
  match fuel with
  | 0 => []
  | fuel + 1 =>
    match l with
    | [] => []
    | c :: cs =>
      match matchMissingAt (c :: cs) with
      | some (nm, after) => nm :: findAllMissingAux fuel after
      | none => findAllMissingAux fuel cs

/-- `re.findall` for the missing-module pattern: every non-overlapping
match's captured module name, left to right. -/
def findAllMissing (l : List Char) : List String :=
  findAllMissingAux l.length l

/-- The `fix_map` of `ScriptRunner._fix_missing_dependencies`, defaulting
to the module name itself. -/
def fixMap (m : String) : String :=
  if m = "talib" then "TA-Lib"
  else if m = "dotenv" then "python-dotenv"
  else if m = "cv2" then "opencv-python"
  else if m = "yaml" then "pyyaml"
  else if m = "PIL" then "pillow"
  else if m = "sklearn" then "scikit-learn"
  else if m = "binance" then "python-binance"
  else if m = "psycopg2" then "psycopg2-binary"
  else m

/-- `ScriptRunner._fix_missing_dependencies`: every missing module named in
the error output, mapped through `fix_map`, is pip-installed individually
(install failures are reported and swallowed). Returns the attempted
package installs in order. -/
def fix_missing_dependencies (errOutput : String) : List String :=
  (findAllMissing errOutput.toList).map fixMap

/-- One observed outcome of launching the script in the environment. -/
inductive RunOutcome where
  | ok (stdout : String)
  | failed (stderr : String)
deriving Repr, DecidableEq

/-- The execution-supervision loop of `ScriptRunner`
(`_run_regular_script_with_env` plus `_handle_script_error`): each launch
consumes one outcome of the trace. A failure's stderr is searched for the
missing-module pattern; on a match, when the operator confirms the
auto-fix, `_fix_missing_dependencies` installs the mapped packages and
`_run_script_with_env` is re-invoked recursively, after which
`_handle_script_error` unconditionally calls `sys.exit(1)`. Returns the
single-package installs attempted across the whole invocation and whether
the invocation ended in `sys.exit(1)`. -/
def run_script_with_env (confirm : Bool) :
    List RunOutcome → List String × Bool
  | [] => ([], false)
  | RunOutcome.ok _ :: _ => ([], false)
  | RunOutcome.failed stderr :: rest =>
    match searchMissing stderr.toList with
    | some _ =>
      if confirm then
        let installs := fix_missing_dependencies stderr
        let tailRes := run_script_with_env confirm rest
        (installs ++ tailRes.1, true)
      else ([], true)
    | none => ([], true)

/-! ## Helper lemmas: the environment store -/

theorem envAt_setEnv_self (l : List (String × Env)) (n : String) (e : Env) :
    envAt (setEnv l n e) n = some e := by
  simp [envAt, setEnv]

theorem envAt_delEnv_self (l : List (String × Env)) (n : String) :
    envAt (delEnv l n) n = none := by
  induction l with
  | nil => rfl
  | cons q t ih =>
    rw [delEnv, List.filter_cons]
    by_cases hq : q.1 = n
    · simp only [hq, bne_self_eq_false, Bool.false_eq_true, if_false]
      exact ih
    · have hb : (q.1 != n) = true := by simpa using hq
      rw [hb, if_pos rfl]
      simp only [envAt]
      rw [List.find?_cons_of_neg]
      · exact ih
      · simpa using hq

/-- An environment is ready for reuse: present, unlocked, owned by the
current user, and valid for the fingerprint. -/
def readyEnv (w : World) (p fp : String) : Prop :=
  ∃ e, envAt w.envs p = some e ∧ e.lockHeld = false ∧
    e.ownerUid = w.currentUid ∧ is_venv_valid (some e) fp = true

theorem create_new_venv_eq (w : World) (nm fp : String) :
    create_new_venv w nm fp =
      if w.createOk then
        ({ w with createCalls := w.createCalls ++ [nm],
                  envs := setEnv w.envs nm (freshEnv w.currentUid fp) },
         some nm)
      else ({ w with createCalls := w.createCalls ++ [nm] }, none) := by
  simp only [create_new_venv]

theorem create_new_venv_some (w w' : World) (nm fp p : String)
    (h : create_new_venv w nm fp = (w', some p)) :
    p = nm ∧ w.createOk = true ∧
    w' = { w with createCalls := w.createCalls ++ [nm],
                  envs := setEnv w.envs nm (freshEnv w.currentUid fp) } := by
  rw [create_new_venv_eq] at h
  split at h
  · next hc =>
    injection h with h1 h2
    injection h2 with h2
    exact ⟨h2.symm, hc, h1.symm⟩
  · simp at h

theorem create_new_venv_ready (w w' : World) (nm fp p : String)
    (h : create_new_venv w nm fp = (w', some p)) :
    readyEnv w' p fp := by
  obtain ⟨hp, -, hw⟩ := create_new_venv_some w w' nm fp p h
  subst hp
  subst hw
  refine ⟨freshEnv w.currentUid fp, ?_, rfl, rfl, ?_⟩
  · exact envAt_setEnv_self w.envs p (freshEnv w.currentUid fp)
  · simp [is_venv_valid, freshEnv]

theorem setup_venv_validity_ready (w w' : World) (n fp p : String)
    (hlock : ∀ e, envAt w.envs n = some e →
      e.lockHeld = false ∧ e.ownerUid = w.currentUid)
    (h : setup_venv_validity w n fp = (w', some p)) :
    readyEnv w' p fp := by
  simp only [setup_venv_validity] at h
  split at h
  · next hv =>
    match he : envAt w.envs n with
    | none => rw [he] at hv; simp [is_venv_valid] at hv
    | some e =>
      rw [he] at hv
      injection h with h1 h2
      injection h2 with h2
      subst h1 h2
      exact ⟨e, he, (hlock e he).1, (hlock e he).2, hv⟩
  · split at h
    · exact create_new_venv_ready _ _ _ _ _ h
    · exact create_new_venv_ready _ _ _ _ _ h

theorem force_remove_venv_fields (w : World) (n : String) :
    (force_remove_venv w n).1.currentUid = w.currentUid ∧
    (force_remove_venv w n).1.createOk = w.createOk ∧
    (force_remove_venv w n).1.now = w.now ∧
    (force_remove_venv w n).1.createCalls = w.createCalls := by
  simp only [force_remove_venv]
  split
  · exact ⟨rfl, rfl, rfl, rfl⟩
  · split <;> exact ⟨rfl, rfl, rfl, rfl⟩

theorem force_remove_venv_fields2 (w w1 : World) (n : String) (b : Bool)
    (h : force_remove_venv w n = (w1, b)) :
    w1.currentUid = w.currentUid ∧ w1.createOk = w.createOk ∧
    w1.now = w.now ∧ w1.createCalls = w.createCalls := by
  have hf := force_remove_venv_fields w n
  rw [h] at hf
  exact hf

theorem force_remove_venv_true (w w' : World) (n : String)
    (h : force_remove_venv w n = (w', true)) :
    envAt w'.envs n = none ∨
      (w' = w ∧ envAt w.envs n = none) := by
  simp only [force_remove_venv] at h
  split at h
  · next he =>
    injection h with h1 _
    subst h1
    exact Or.inr ⟨rfl, he⟩
  · split at h
    · injection h with h1 _
      subst h1
      exact Or.inl (envAt_delEnv_self ..)
    · simp at h

theorem setup_venv_owner_ready (w w' : World) (n fp p : String)
    (hlock : ∀ e, envAt w.envs n = some e → e.lockHeld = false)
    (h : setup_venv_owner w n fp = (w', some p)) :
    readyEnv w' p fp := by
  simp only [setup_venv_owner] at h
  split at h
  · next howned =>
    revert h
    match hrm : force_remove_venv w n with
    | (w1, true) =>
      intro h
      refine setup_venv_validity_ready w1 w' n fp p ?_ h
      intro e he
      rcases force_remove_venv_true w w1 n hrm with hnone | ⟨hw, hnone⟩
      · rw [he] at hnone; exact absurd hnone (by simp)
      · subst hw; rw [he] at hnone; exact absurd hnone (by simp)
    | (w1, false) =>
      intro h
      exact create_new_venv_ready _ _ _ _ _ h
  · next howned =>
    refine setup_venv_validity_ready w w' n fp p ?_ h
    intro e he
    refine ⟨hlock e he, ?_⟩
    simp only [is_owned_by_another, he] at howned
    simpa using howned

theorem setup_venv_ready (w w' : World) (n fp p : String)
    (h : setup_venv w n fp = (w', some p)) :
    readyEnv w' p fp := by
  simp only [setup_venv] at h
  split at h
  · exact create_new_venv_ready _ _ _ _ _ h
  · next e he =>
    split at h
    · split at h
      · refine setup_venv_owner_ready _ w' n fp p ?_ h
        intro e' he'
        rw [envAt_setEnv_self] at he'
        injection he' with he'
        subst he'
        rfl
      · exact create_new_venv_ready _ _ _ _ _ h
    · next hlocked =>
      refine setup_venv_owner_ready w w' n fp p ?_ h
      intro e' he'
      rw [he] at he'
      injection he' with he'
      subst he'
      simpa [is_venv_locked] using hlocked

theorem setup_venv_reuse (w : World) (p fp : String)
    (hready : readyEnv w p fp) :
    setup_venv w p fp = (w, some p) := by
  obtain ⟨e, he, hlock, howner, hvalid⟩ := hready
  simp only [setup_venv, he, is_venv_locked, hlock, Bool.false_eq_true,
    if_false, setup_venv_owner, is_owned_by_another, he, howner,
    bne_self_eq_false, setup_venv_validity, hvalid, if_true]

theorem is_venv_valid_clearLocks (e : Env) (fp : String) :
    is_venv_valid (some (clearLocks e)) fp = is_venv_valid (some e) fp := rfl

theorem setup_venv_validity_invalid (w w' : World) (n fp p : String)
    (hv : is_venv_valid (envAt w.envs n) fp = false)
    (h : setup_venv_validity w n fp = (w', some p)) :
    w'.createCalls = w.createCalls ++ [p] ∧
    envAt w'.envs p = some (freshEnv w.currentUid fp) := by
  simp only [setup_venv_validity, hv, Bool.false_eq_true, if_false] at h
  split at h
  · next w1 heq =>
    obtain ⟨hp, -, hw⟩ := create_new_venv_some w1 w' n fp p h
    obtain ⟨hu, -, -, hcc⟩ := force_remove_venv_fields2 w w1 n true heq
    subst hp
    subst hw
    rw [hcc, hu]
    exact ⟨rfl, envAt_setEnv_self ..⟩
  · next w1 heq =>
    obtain ⟨hp, -, hw⟩ := create_new_venv_some w1 w' _ fp p h
    obtain ⟨hu, -, -, hcc⟩ := force_remove_venv_fields2 w w1 n false heq
    subst hp
    subst hw
    rw [hcc, hu]
    exact ⟨rfl, envAt_setEnv_self ..⟩

theorem setup_venv_owner_stale (w w' : World) (n fp p : String)
    (hv : is_venv_valid (envAt w.envs n) fp = false)
    (h : setup_venv_owner w n fp = (w', some p)) :
    w'.createCalls = w.createCalls ++ [p] ∧
    envAt w'.envs p = some (freshEnv w.currentUid fp) := by
  simp only [setup_venv_owner] at h
  split at h
  · split at h
    · next w1 heq =>
      obtain ⟨hu, -, -, hcc⟩ := force_remove_venv_fields2 w w1 n true heq
      have hv1 : is_venv_valid (envAt w1.envs n) fp = false := by
        rcases force_remove_venv_true w w1 n heq with hnone | ⟨hw, hnone⟩
        · rw [hnone]; rfl
        · subst hw; rw [hnone]; rfl
      have := setup_venv_validity_invalid w1 w' n fp p hv1 h
      rw [hu, hcc] at this
      exact this
    · next w1 heq =>
      obtain ⟨hp, -, hw⟩ := create_new_venv_some w1 w' _ fp p h
      obtain ⟨hu, -, -, hcc⟩ := force_remove_venv_fields2 w w1 n false heq
      subst hp
      subst hw
      rw [hcc, hu]
      exact ⟨rfl, envAt_setEnv_self ..⟩
  · exact setup_venv_validity_invalid w w' n fp p hv h

theorem setup_venv_stale (w w' : World) (n fp p : String)
    (hv : is_venv_valid (envAt w.envs n) fp = false)
    (h : setup_venv w n fp = (w', some p)) :
    w'.createCalls = w.createCalls ++ [p] ∧
    envAt w'.envs p = some (freshEnv w.currentUid fp) := by
  simp only [setup_venv] at h
  split at h
  · obtain ⟨hp, -, hw⟩ := create_new_venv_some w w' n fp p h
    subst hp
    subst hw
    exact ⟨rfl, envAt_setEnv_self ..⟩
  · next e he =>
    split at h
    · split at h
      · have hv1 : is_venv_valid
            (envAt (setEnv w.envs n (clearLocks e)) n) fp = false := by
          rw [envAt_setEnv_self, is_venv_valid_clearLocks, ← he]
          exact hv
        have := setup_venv_owner_stale _ w' n fp p hv1 h
        exact this
      · obtain ⟨hp, -, hw⟩ := create_new_venv_some w w' _ fp p h
        subst hp
        subst hw
        exact ⟨rfl, envAt_setEnv_self ..⟩
    · exact setup_venv_owner_stale w w' n fp p hv h

theorem setup_venv_validity_cases (w : World) (n fp : String) :
    (∃ w1, setup_venv_validity w n fp = (w1, some n) ∧
      w1.createOk = w.createOk ∧ w1.createCalls = w.createCalls) ∨
    ∃ w1 nm, setup_venv_validity w n fp = create_new_venv w1 nm fp ∧
      w1.createOk = w.createOk ∧ w1.createCalls = w.createCalls := by
  simp only [setup_venv_validity]
  split
  · exact Or.inl ⟨w, rfl, rfl, rfl⟩
  · split
    · next w1 heq =>
      obtain ⟨-, hc, -, hcc⟩ := force_remove_venv_fields2 w w1 n true heq
      exact Or.inr ⟨w1, n, rfl, hc, hcc⟩
    · next w1 heq =>
      obtain ⟨-, hc, -, hcc⟩ := force_remove_venv_fields2 w w1 n false heq
      exact Or.inr ⟨w1, _, rfl, hc, hcc⟩

theorem setup_venv_owner_cases (w : World) (n fp : String) :
    (∃ w1, setup_venv_owner w n fp = (w1, some n) ∧
      w1.createOk = w.createOk ∧ w1.createCalls = w.createCalls) ∨
    ∃ w1 nm, setup_venv_owner w n fp = create_new_venv w1 nm fp ∧
      w1.createOk = w.createOk ∧ w1.createCalls = w.createCalls := by
  simp only [setup_venv_owner]
  split
  · split
    · next w1 heq =>
      obtain ⟨-, hc, -, hcc⟩ := force_remove_venv_fields2 w w1 n true heq
      rcases setup_venv_validity_cases w1 n fp with
        ⟨w2, h, hc2, hcc2⟩ | ⟨w2, nm, h, hc2, hcc2⟩
      · exact Or.inl ⟨w2, h, hc2.trans hc, hcc2.trans hcc⟩
      · exact Or.inr ⟨w2, nm, h, hc2.trans hc, hcc2.trans hcc⟩
    · next w1 heq =>
      obtain ⟨-, hc, -, hcc⟩ := force_remove_venv_fields2 w w1 n false heq
      exact Or.inr ⟨w1, _, rfl, hc, hcc⟩
  · exact setup_venv_validity_cases w n fp

theorem setup_venv_cases (w : World) (n fp : String) :
    (∃ w1, setup_venv w n fp = (w1, some n) ∧
      w1.createOk = w.createOk ∧ w1.createCalls = w.createCalls) ∨
    ∃ w1 nm, setup_venv w n fp = create_new_venv w1 nm fp ∧
      w1.createOk = w.createOk ∧ w1.createCalls = w.createCalls := by
  simp only [setup_venv]
  split
  · exact Or.inr ⟨w, n, rfl, rfl, rfl⟩
  · next e he =>
    split
    · split
      · exact setup_venv_owner_cases
          { w with envs := setEnv w.envs n (clearLocks e) } n fp
      · exact Or.inr ⟨w, fallbackName n w.now, rfl, rfl, rfl⟩
    · exact setup_venv_owner_cases w n fp

theorem generate_requirements_fields (w : World) (s : Script) :
    (generate_requirements w s).1.envs = w.envs ∧
    (generate_requirements w s).1.createOk = w.createOk ∧
    (generate_requirements w s).1.currentUid = w.currentUid ∧
    (generate_requirements w s).1.createCalls = w.createCalls ∧
    (generate_requirements w s).1.installLog = w.installLog := by
  simp only [generate_requirements]
  split <;> exact ⟨rfl, rfl, rfl, rfl, rfl⟩

/-! ## The claims -/

/-- C1: if `setup_venv(n, fp)` succeeds and returns the root path for `n`,
a second `setup_venv(n, fp)` call with `fp` unchanged and no external
interference returns the same root path, changes nothing, and does not
invoke the environment-creation command a second time: the environment the
first call left behind is unlocked, owned by the current user, stamped with
`fp`, with working executables, so the second call reuses it. -/
theorem setup_venv_second_call_reuses (w w' : World) (n fp : String)
    (h : setup_venv w n fp = (w', some n)) :
    setup_venv w' n fp = (w', some n) ∧
    (setup_venv w' n fp).1.createCalls = w'.createCalls := by
  have h2 := setup_venv_reuse w' n fp (setup_venv_ready w w' n fp n h)
  exact ⟨h2, by rw [h2]⟩

/-- The world before the first `setup_venv` call of the reuse scenario:
no environment directory exists and creation succeeds. -/
def wStart : World :=
  { envs := [], currentUid := 1000, createOk := true, now := 42,
    createCalls := [], reqFile := none, installLog := [] }

/-- The world after the first `setup_venv` call on `wStart`. -/
def wAfter : World :=
  { wStart with envs := [("venv", freshEnv 1000 "fp1")],
                createCalls := ["venv"] }

theorem setup_venv_second_call_reuses_witness :
    setup_venv wStart "venv" "fp1" = (wAfter, some "venv") ∧
    setup_venv wAfter "venv" "fp1" = (wAfter, some "venv") ∧
    (setup_venv wAfter "venv" "fp1").1.createCalls = wAfter.createCalls := by
  have h0 : setup_venv wStart "venv" "fp1" = (wAfter, some "venv") := by
    decide
  obtain ⟨h1, h2⟩ := setup_venv_second_call_reuses wStart wAfter "venv" "fp1" h0
  exact ⟨h0, h1, h2⟩

/-- C2: when the existing environment's stored fingerprint differs from the
current fingerprint `fp`, `setup_venv` never returns that environment
unmodified: whatever path it returns (the original name or a
timestamp-suffixed fallback) was created by exactly one fresh
creation-command invocation and is stamped so that its stored fingerprint
equals `fp`. -/
theorem setup_venv_stale_returns_fresh (w w' : World) (n fp p : String)
    (e : Env) (he : envAt w.envs n = some e)
    (hs : e.storedFingerprint ≠ some fp)
    (h : setup_venv w n fp = (w', some p)) :
    w'.createCalls = w.createCalls ++ [p] ∧
    ∃ e', envAt w'.envs p = some e' ∧ e'.storedFingerprint = some fp := by
  have hv : is_venv_valid (envAt w.envs n) fp = false := by
    rw [he]
    simp only [is_venv_valid]
    have hb : (e.storedFingerprint == some fp) = false :=
      beq_eq_false_iff_ne.mpr hs
    simp [hb]
  obtain ⟨h1, h2⟩ := setup_venv_stale w w' n fp p hv h
  exact ⟨h1, freshEnv w.currentUid fp, h2, rfl⟩

/-- An existing environment stamped with an outdated fingerprint. -/
def eStale : Env :=
  { storedFingerprint := some "old", lockHeld := false,
    lockFilesRemovable := true, ownerUid := 5, pythonExists := true,
    pipExists := true, versionProbeOk := true, removable := true }

/-- A world holding the stale environment `eStale` under the default name. -/
def wStale : World :=
  { envs := [("venv", eStale)], currentUid := 5, createOk := true, now := 7,
    createCalls := [], reqFile := none, installLog := [] }

/-- The world after `setup_venv` rebuilds the stale environment. -/
def wStaleAfter : World :=
  { wStale with envs := [("venv", freshEnv 5 "new")],
                createCalls := ["venv"] }

theorem setup_venv_stale_returns_fresh_witness :
    wStaleAfter.createCalls = wStale.createCalls ++ ["venv"] ∧
    ∃ e', envAt wStaleAfter.envs "venv" = some e' ∧
      e'.storedFingerprint = some "new" :=
  setup_venv_stale_returns_fresh wStale wStaleAfter "venv" "new" "venv"
    eStale (by decide) (by decide) (by decide)

/-- C3, amended: with the advisory lock on the existing environment held
by another process: if the stale lock files are removable AND the
environment is otherwise usable (owned by the current user, and either
valid or removable with a succeeding creation subprocess), `setup_venv`
succeeds under the original environment name with no fallback to a renamed
environment; if removing the lock files is blocked and the creation
subprocess succeeds, `setup_venv` returns the `"{name}_{timestamp}"`
fallback environment. (The unamended claim omits the ownership, validity
and creation-success conditions; `setup_venv_lock_contention_cex` shows it
fails without them.) -/
theorem setup_venv_lock_contention (w : World) (n fp : String) (e : Env)
    (he : envAt w.envs n = some e) (hl : e.lockHeld = true) :
    (e.lockFilesRemovable = true → e.ownerUid = w.currentUid →
      (is_venv_valid (some e) fp = true ∨
        (e.removable = true ∧ w.createOk = true)) →
      (setup_venv w n fp).2 = some n) ∧
    (e.lockFilesRemovable = false → w.createOk = true →
      (setup_venv w n fp).2 = some (fallbackName n w.now)) := by
  constructor
  · intro hrem hown hval
    have h1 : setup_venv w n fp =
        setup_venv_owner
          { w with envs := setEnv w.envs n (clearLocks e) } n fp := by
      simp only [setup_venv, he, is_venv_locked, hl, force_unlock_ok, hrem,
        if_true]
    rw [h1]
    have heL : envAt (setEnv w.envs n (clearLocks e)) n =
        some (clearLocks e) := envAt_setEnv_self ..
    have howner : is_owned_by_another
        { w with envs := setEnv w.envs n (clearLocks e) } n = false := by
      simp only [is_owned_by_another, heL]
      simp [clearLocks, hown]
    simp only [setup_venv_owner, howner, Bool.false_eq_true, if_false]
    by_cases hvL : is_venv_valid (envAt (setEnv w.envs n (clearLocks e)) n)
        fp = true
    · simp only [setup_venv_validity, hvL, if_true]
    · have hvL2 : is_venv_valid (envAt (setEnv w.envs n (clearLocks e)) n)
          fp = false := by
        exact Bool.not_eq_true _ |>.mp hvL
      rcases hval with hv | ⟨hrm, hco⟩
      · rw [heL, is_venv_valid_clearLocks] at hvL
        exact absurd hv hvL
      · have hfr : force_remove_venv
            { w with envs := setEnv w.envs n (clearLocks e) } n =
            ({ w with envs :=
                delEnv (setEnv w.envs n (clearLocks e)) n }, true) := by
          simp only [force_remove_venv, heL]
          simp [clearLocks, hrm]
        simp only [setup_venv_validity, hvL2, Bool.false_eq_true, if_false,
          hfr]
        rw [create_new_venv_eq]
        simp [hco]
  · intro hrem hco
    have h1 : setup_venv w n fp =
        create_new_venv w (fallbackName n w.now) fp := by
      simp only [setup_venv, he, is_venv_locked, hl, force_unlock_ok, hrem,
        if_true, Bool.false_eq_true, if_false]
    rw [h1, create_new_venv_eq, hco]
    simp

/-- A locked but otherwise valid environment whose lock files are
removable. -/
def eLockedA : Env :=
  { storedFingerprint := some "f", lockHeld := true,
    lockFilesRemovable := true, ownerUid := 7, pythonExists := true,
    pipExists := true, versionProbeOk := true, removable := true }

/-- A world holding `eLockedA` under the default name. -/
def wLockA : World :=
  { envs := [("venv", eLockedA)], currentUid := 7, createOk := true,
    now := 99, createCalls := [], reqFile := none, installLog := [] }

/-- The same locked environment with unremovable lock files. -/
def eLockedB : Env := { eLockedA with lockFilesRemovable := false }

/-- A world holding `eLockedB` under the default name. -/
def wLockB : World := { wLockA with envs := [("venv", eLockedB)] }

theorem setup_venv_lock_contention_witness :
    (setup_venv wLockA "venv" "f").2 = some "venv" ∧
    (setup_venv wLockB "venv" "f").2 = some (fallbackName "venv" 99) := by
  constructor
  · exact (setup_venv_lock_contention wLockA "venv" "f" eLockedA (by decide)
      (by decide)).1 (by decide) (by decide) (Or.inl (by decide))
  · exact (setup_venv_lock_contention wLockB "venv" "f" eLockedB (by decide)
      (by decide)).2 (by decide) (by decide)

/-- A locked environment with removable lock files that is nevertheless
owned by a foreign user and cannot be deleted. -/
def eForeign : Env :=
  { storedFingerprint := some "f", lockHeld := true,
    lockFilesRemovable := true, ownerUid := 99, pythonExists := true,
    pipExists := true, versionProbeOk := true, removable := false }

/-- A world holding `eForeign` under the default name. -/
def wForeign : World :=
  { envs := [("venv", eForeign)], currentUid := 7, createOk := true,
    now := 5, createCalls := [], reqFile := none, installLog := [] }

/-- A world holding the lock-blocked environment `eLockedB` where the
creation subprocess also fails. -/
def wNoCreate : World :=
  { envs := [("venv", eLockedB)], currentUid := 7, createOk := false,
    now := 5, createCalls := [], reqFile := none, installLog := [] }

/-- C3's unamended statement is false on the code: in `wForeign` the lock
attempt fails and the lock files are removable, yet `setup_venv` does fall
back to a `"{name}_{timestamp}"` environment (the directory belongs to a
foreign user and cannot be deleted); and in `wNoCreate` lock-file removal
is blocked yet no environment at all is returned (the fallback creation
fails), rather than one matching the renamed pattern. -/
theorem setup_venv_lock_contention_cex :
    (envAt wForeign.envs "venv").map
        (fun e => (e.lockHeld, e.lockFilesRemovable)) = some (true, true) ∧
    (setup_venv wForeign "venv" "f").2 = some (fallbackName "venv" 5) ∧
    some (fallbackName "venv" 5) ≠ (some "venv" : Option String) ∧
    (envAt wNoCreate.envs "venv").map (·.lockFilesRemovable) =
      some false ∧
    (setup_venv wNoCreate "venv" "f").2 = none := by
  decide

/-- C5: a creation-subprocess failure is the only outcome of `setup_venv`
that yields no environment: a `None` result implies the creation oracle
failed and exactly one creation attempt was made (no renamed retry follows
a failed creation), while a succeeding creation oracle guarantees some
environment is returned; and on a `None` result `run_script` degrades to
running the script directly. -/
theorem setup_venv_none_only_creation_failure (w : World) (n fp : String)
    (s : Script) (b : Bool) :
    ((setup_venv w n fp).2 = none →
      w.createOk = false ∧
      (setup_venv w n fp).1.createCalls.length =
        w.createCalls.length + 1) ∧
    (w.createOk = true → ((setup_venv w n fp).2).isSome = true) ∧
    (has_external_dependencies s = true → w.createOk = false →
      envAt w.envs "venv" = none →
      (run_script w fp s b).2 = ExecMode.direct) := by
  refine ⟨?_, ?_, ?_⟩
  · intro hnone
    rcases setup_venv_cases w n fp with ⟨w1, h, -, -⟩ | ⟨w1, nm, h, hc, hcc⟩
    · rw [h] at hnone
      simp at hnone
    · rw [h, create_new_venv_eq] at hnone ⊢
      split at hnone
      · simp at hnone
      · next hok =>
        have hw1 : w1.createOk = false := Bool.not_eq_true _ |>.mp hok
        refine ⟨by rw [← hc]; exact hw1, ?_⟩
        rw [if_neg hok]
        simp [hcc]
  · intro hok
    rcases setup_venv_cases w n fp with ⟨w1, h, -, -⟩ | ⟨w1, nm, h, hc, -⟩
    · rw [h]
      rfl
    · rw [h, create_new_venv_eq]
      have : w1.createOk = true := hc.trans hok
      simp [this]
  · intro hd hcf he
    obtain ⟨hge, hgc, -, -, -⟩ := generate_requirements_fields w s
    have he1 : envAt (generate_requirements w s).1.envs "venv" = none := by
      rw [hge]
      exact he
    have hsetup : setup_venv (generate_requirements w s).1 "venv" fp =
        ({ (generate_requirements w s).1 with
            createCalls :=
              (generate_requirements w s).1.createCalls ++ ["venv"] },
         none) := by
      simp only [setup_venv, he1, create_new_venv_eq, hgc, hcf,
        Bool.false_eq_true, if_false]
    simp only [run_script, hd, if_true, hsetup]

/-- A script importing one installable external package. -/
def sReq : Script :=
  { readable := true, imports := ["requests"], streamlitSource := false }

/-- A world with no environment where the creation subprocess fails. -/
def wFail : World :=
  { envs := [], currentUid := 3, createOk := false, now := 1,
    createCalls := [], reqFile := none, installLog := [] }

theorem setup_venv_none_only_creation_failure_witness :
    ((setup_venv wFail "venv" "f").2 = none →
      wFail.createOk = false ∧
      (setup_venv wFail "venv" "f").1.createCalls.length =
        wFail.createCalls.length + 1) ∧
    (run_script wFail "f" sReq true).2 = ExecMode.direct := by
  constructor
  · exact (setup_venv_none_only_creation_failure wFail "venv" "f" sReq
      true).1
  · exact (setup_venv_none_only_creation_failure wFail "venv" "f" sReq
      true).2.2 (by decide) (by decide) (by decide)

/-! ## Requirements generation: helper lemmas -/

theorem charListLe_total : ∀ a b : List Char,
    charListLe a b = true ∨ charListLe b a = true
  | [], _ => Or.inl rfl
  | _ :: _, [] => Or.inr rfl
  | a :: as, b :: bs => by
    by_cases hab : a = b
    · subst hab
      simp only [charListLe, if_pos rfl]
      exact charListLe_total as bs
    · rcases lt_or_gt_of_ne hab with h | h
      · left
        simp [charListLe, hab, h]
      · right
        simp [charListLe, Ne.symm hab, h]

theorem charListLe_trans : ∀ a b c : List Char, charListLe a b = true →
    charListLe b c = true → charListLe a c = true
  | [], _, _, _, _ => rfl
  | _ :: _, [], _, h1, _ => by simp [charListLe] at h1
  | _ :: _, _ :: _, [], _, h2 => by simp [charListLe] at h2
  | a :: as, b :: bs, c :: cs, h1, h2 => by
    simp only [charListLe] at h1 h2 ⊢
    by_cases hab : a = b
    · subst hab
      rw [if_pos rfl] at h1
      by_cases hbc : a = c
      · subst hbc
        rw [if_pos rfl] at h2 ⊢
        exact charListLe_trans as bs cs h1 h2
      · rw [if_neg hbc] at h2 ⊢
        exact h2
    · rw [if_neg hab] at h1
      have hlt1 : a < b := of_decide_eq_true h1
      by_cases hbc : b = c
      · subst hbc
        rw [if_neg hab]
        exact h1
      · rw [if_neg hbc] at h2
        have hlt2 : b < c := of_decide_eq_true h2
        have hac : a < c := lt_trans hlt1 hlt2
        rw [if_neg (ne_of_lt hac)]
        exact decide_eq_true hac

theorem charListLe_antisymm : ∀ a b : List Char, charListLe a b = true →
    charListLe b a = true → a = b
  | [], [], _, _ => rfl
  | [], _ :: _, _, h2 => by simp [charListLe] at h2
  | _ :: _, [], h1, _ => by simp [charListLe] at h1
  | a :: as, b :: bs, h1, h2 => by
    simp only [charListLe] at h1 h2
    by_cases hab : a = b
    · subst hab
      rw [if_pos rfl] at h1 h2
      rw [charListLe_antisymm as bs h1 h2]
    · rw [if_neg hab] at h1
      rw [if_neg (Ne.symm hab)] at h2
      exact absurd (of_decide_eq_true h1)
        (not_lt_of_gt (of_decide_eq_true h2))

instance : IsTotal String fun a b => strLe a b = true :=
  ⟨fun a b => charListLe_total a.toList b.toList⟩

instance : IsTrans String fun a b => strLe a b = true :=
  ⟨fun a b c => charListLe_trans a.toList b.toList c.toList⟩

instance : IsAntisymm String fun a b => strLe a b = true :=
  ⟨fun a b h1 h2 => String.ext (charListLe_antisymm a.toList b.toList h1 h2)⟩

theorem insertUnique_nodup (l : List String) (a : String) (h : l.Nodup) :
    (insertUnique l a).Nodup := by
  unfold insertUnique
  split
  · exact h
  · next hc =>
    refine List.Nodup.cons ?_ h
    simpa using hc

theorem foldl_insertUnique_nodup (l acc : List String) (h : acc.Nodup) :
    (l.foldl insertUnique acc).Nodup := by
  induction l generalizing acc with
  | nil => exact h
  | cons x t ih => exact ih _ (insertUnique_nodup acc x h)

theorem addImport_nodup (acc : List String) (imp : String) (h : acc.Nodup) :
    (addImport acc imp).Nodup := by
  unfold addImport
  split
  · exact h
  · split
    · exact h
    · split
      · exact foldl_insertUnique_nodup _ _ h
      · exact insertUnique_nodup _ _ h

theorem foldl_addImport_nodup (l acc : List String) (h : acc.Nodup) :
    (l.foldl addImport acc).Nodup := by
  induction l generalizing acc with
  | nil => exact h
  | cons x t ih => exact ih _ (addImport_nodup acc x h)

theorem requirementSet_nodup (s : Script) : (requirementSet s).Nodup := by
  have h0 : ((extract_imports s).foldl addImport []).Nodup :=
    foldl_addImport_nodup _ _ List.nodup_nil
  simp only [requirementSet]
  split <;> split <;>
    first
      | exact insertUnique_nodup _ _ (insertUnique_nodup _ _ h0)
      | exact insertUnique_nodup _ _ h0
      | exact h0

/-! ## The claims (continued) -/

/-- A world with an empty project state, used by concrete scenarios. -/
def wBlank : World :=
  { envs := [], currentUid := 0, createOk := true, now := 0,
    createCalls := [], reqFile := none, installLog := [] }

/-- The script of Scenario B: its import set is exactly `{"psycopg2"}`. -/
def sPsycopg2 : Script :=
  { readable := true, imports := ["psycopg2"], streamlitSource := false }

/-- C6: for the import set `{"psycopg2"}`, the resolved manifest contains
exactly `psycopg2-binary` (via the static table) and `python-dotenv` (the
forced configuration-loader coupling), and `generate_requirements` writes
exactly those two lines. -/
theorem generate_requirements_psycopg2 :
    ((requirementSet sPsycopg2).insertionSort fun a b => strLe a b = true) =
      ["psycopg2-binary", "python-dotenv"] ∧
    generate_requirements wBlank sPsycopg2 =
      ({ wBlank with reqFile := some "psycopg2-binary\npython-dotenv\n" },
       true) := by
  constructor
  · decide
  · decide

/-- C8: the manifest list written by `generate_requirements` is
lexicographically sorted and duplicate-free, and regeneration is
idempotent: a second `generate_requirements` call on the same script
leaves byte-identical `requirements.txt` contents. -/
theorem generate_requirements_sorted_nodup_idempotent (w : World)
    (s : Script) :
    List.Sorted (fun a b => strLe a b = true)
      ((requirementSet s).insertionSort fun a b => strLe a b = true) ∧
    ((requirementSet s).insertionSort fun a b => strLe a b = true).Nodup ∧
    (generate_requirements (generate_requirements w s).1 s).1.reqFile =
      (generate_requirements w s).1.reqFile := by
  refine ⟨List.sorted_insertionSort _ _, ?_, ?_⟩
  · exact (List.perm_insertionSort _ _).nodup_iff.mpr (requirementSet_nodup s)
  · by_cases hreq : (requirementSet s).isEmpty
    · simp [generate_requirements, hreq]
    · simp [generate_requirements, hreq]

/-- C9: an unreadable script yields the empty import set, hence is
classified as having no external dependencies, and `run_script` runs it
directly with the system interpreter, creating no environment and
installing nothing (the world is unchanged). -/
theorem unreadable_script_runs_directly (w : World) (fp : String)
    (s : Script) (b : Bool) (h : s.readable = false) :
    extract_imports s = [] ∧ has_external_dependencies s = false ∧
    run_script w fp s b = (w, ExecMode.direct) := by
  have h1 : extract_imports s = [] := by
    simp [extract_imports, h]
  have h2 : has_external_dependencies s = false := by
    simp [has_external_dependencies, h1]
  exact ⟨h1, h2, by simp [run_script, h2]⟩

/-- A script whose source cannot be read at analysis time. -/
def sUnreadable : Script :=
  { readable := false, imports := ["requests"], streamlitSource := false }

theorem unreadable_script_runs_directly_witness :
    extract_imports sUnreadable = [] ∧
    has_external_dependencies sUnreadable = false ∧
    run_script wBlank "f" sUnreadable true = (wBlank, ExecMode.direct) :=
  unreadable_script_runs_directly wBlank "f" sUnreadable true (by decide)

/-- C10: when the resolved package set is empty, `generate_requirements`
reports `False` and neither writes nor deletes: a pre-existing
`requirements.txt` survives unchanged, and a subsequent
`install_dependencies` call still finds the stale manifest and drives the
installer from it (bulk install, then the stale lines individually on bulk
failure). -/
theorem empty_requirements_keeps_stale_manifest (w : World) (s : Script)
    (stale : String) (hreq : requirementSet s = [])
    (hfile : w.reqFile = some stale) :
    (generate_requirements w s).2 = false ∧
    (generate_requirements w s).1.reqFile = some stale ∧
    (install_dependencies (generate_requirements w s).1 false).installLog =
      w.installLog ++ ["-r requirements.txt"] ++ parseReqLines stale := by
  have hg : generate_requirements w s = (w, false) := by
    simp [generate_requirements, hreq]
  rw [hg]
  refine ⟨rfl, hfile, ?_⟩
  simp [install_dependencies, hfile]

/-- A script importing only the standard library. -/
def sStdlibOnly : Script :=
  { readable := true, imports := ["os"], streamlitSource := false }

/-- A world with a stale `requirements.txt` left by an earlier run. -/
def wStaleReq : World := { wBlank with reqFile := some "pandas\n" }

theorem empty_requirements_keeps_stale_manifest_witness :
    (generate_requirements wStaleReq sStdlibOnly).2 = false ∧
    (generate_requirements wStaleReq sStdlibOnly).1.reqFile =
      some "pandas\n" ∧
    (install_dependencies (generate_requirements wStaleReq sStdlibOnly).1
        false).installLog =
      wStaleReq.installLog ++ ["-r requirements.txt"]
        ++ parseReqLines "pandas\n" :=
  empty_requirements_keeps_stale_manifest wStaleReq sStdlibOnly "pandas\n"
    (by decide) (by decide)

/-- The stderr text `No module named 'yaml'`. -/
def noModuleYaml : String :=
  String.mk (missingMarker ++ "yaml".toList ++ [quoteChar])

/-- C4, the divergence: on the trace where the script fails twice with
`No module named 'yaml'` before succeeding, with the operator confirming
each auto-fix prompt, the supervisor installs `pyyaml` (the `fix_map` image
of `yaml`) and retries after the FIRST failure — but then, when the retry
fails again with the same matching stderr, it performs a SECOND
repair-and-retry instead of stopping at a terminal error: two
single-package installs happen in one invocation, contradicting the
claimed exactly-once bound. -/
theorem missing_module_second_failure_repairs_again :
    run_script_with_env true
      [RunOutcome.failed noModuleYaml, RunOutcome.failed noModuleYaml,
        RunOutcome.ok ""] =
      (["pyyaml", "pyyaml"], true) := by
  decide

/-! ## Fingerprinting: helper lemmas -/

theorem insertionSort_strLe_eq_of_perm (l1 l2 : List String)
    (h : l1.Perm l2) :
    (l1.insertionSort fun a b => strLe a b = true) =
    (l2.insertionSort fun a b => strLe a b = true) :=
  List.eq_of_perm_of_sorted
    ((List.perm_insertionSort _ l1).trans
      (h.trans (List.perm_insertionSort _ l2).symm))
    (List.sorted_insertionSort _ l1) (List.sorted_insertionSort _ l2)

theorem filterMap_congr_mem {α β : Type} (l : List α) (f g : α → Option β)
    (h : ∀ a ∈ l, f a = g a) : l.filterMap f = l.filterMap g := by
  induction l with
  | nil => rfl
  | cons x t ih =>
    rw [List.filterMap_cons, List.filterMap_cons, h x (by simp),
      ih fun a ha => h a (by simp [ha])]

theorem insertionSort_strLe_filter (l : List String) (q : String → Bool) :
    ((l.filter q).insertionSort fun a b => strLe a b = true) =
    ((l.insertionSort fun a b => strLe a b = true).filter q) :=
  List.eq_of_perm_of_sorted
    ((List.perm_insertionSort _ _).trans
      ((List.perm_insertionSort _ l).filter q).symm)
    (List.sorted_insertionSort _ _)
    (List.Pairwise.filter q (List.sorted_insertionSort _ l))

theorem filterMap_filter_isSome {α β : Type} (l : List α)
    (f : α → Option β) :
    (l.filter fun a => (f a).isSome).filterMap f = l.filterMap f := by
  induction l with
  | nil => rfl
  | cons x t ih =>
    cases hfx : f x with
    | some b => simp [List.filter_cons, List.filterMap_cons, hfx, ih]
    | none => simp [List.filter_cons, List.filterMap_cons, hfx, ih]

theorem fingerprintStream_filter_readable (p : ProjectFS) :
    fingerprintStream
      { p with scriptPaths :=
          p.scriptPaths.filter fun s => (p.readFile s).isSome } =
    fingerprintStream p := by
  unfold fingerprintStream
  dsimp only
  rw [insertionSort_strLe_filter, filterMap_filter_isSome]
  rfl

/-- C7: `get_project_fingerprint` is deterministic and depends only on the
raw bytes of the project's source files — consumed in sorted path order —
followed by the manifest bytes: two projects with byte-identical file sets
(the same paths up to permutation, with identical bytes per path) and the
same manifest state yield the same fingerprint string, regardless of
modification times (the unconstrained `mtimes` fields), and an unreadable
file is skipped — the fingerprint equals that of the project restricted to
its readable files — rather than aborting the computation. -/
theorem get_project_fingerprint_content_determined (p1 p2 : ProjectFS)
    (hperm : p1.scriptPaths.Perm p2.scriptPaths)
    (hread : ∀ s ∈ p1.scriptPaths, p1.readFile s = p2.readFile s)
    (hman : p1.manifestExists = p2.manifestExists)
    (hmb : p1.readManifest = p2.readManifest) :
    get_project_fingerprint p1 = get_project_fingerprint p2 ∧
    get_project_fingerprint p1 =
      get_project_fingerprint
        { p1 with scriptPaths :=
            p1.scriptPaths.filter fun s => (p1.readFile s).isSome } := by
  constructor
  · have hsort :
        (p1.scriptPaths.insertionSort fun a b => strLe a b = true) =
        (p2.scriptPaths.insertionSort fun a b => strLe a b = true) :=
      insertionSort_strLe_eq_of_perm _ _ hperm
    have hfm :
        ((p1.scriptPaths.insertionSort fun a b =>
          strLe a b = true).filterMap p1.readFile) =
        ((p2.scriptPaths.insertionSort fun a b =>
          strLe a b = true).filterMap p2.readFile) := by
      rw [← hsort]
      exact filterMap_congr_mem _ _ _ fun a ha =>
        hread a ((List.perm_insertionSort _ _).mem_iff.mp ha)
    unfold get_project_fingerprint fingerprintStream manifestBytes
    rw [hfm, hman, hmb]
  · unfold get_project_fingerprint
    rw [fingerprintStream_filter_readable]

/-- A project whose files are listed in unsorted order, with one
unreadable file, read at modification time 100. -/
def projA : ProjectFS :=
  { scriptPaths := ["b.py", "a.py", "c.py"]
    readFile := fun s =>
      if s = "a.py" then some [1, 2]
      else if s = "b.py" then some [3] else none
    mtimes := fun _ => 100
    manifestExists := true
    readManifest := some [9] }

/-- The byte-identical project listed in a different order with different
modification times. -/
def projB : ProjectFS :=
  { scriptPaths := ["a.py", "c.py", "b.py"]
    readFile := fun s =>
      if s = "a.py" then some [1, 2]
      else if s = "b.py" then some [3] else none
    mtimes := fun _ => 555
    manifestExists := true
    readManifest := some [9] }

theorem get_project_fingerprint_content_determined_witness :
    get_project_fingerprint projA = get_project_fingerprint projB ∧
    get_project_fingerprint projA =
      get_project_fingerprint
        { projA with scriptPaths :=
            projA.scriptPaths.filter fun s => (projA.readFile s).isSome } :=
  get_project_fingerprint_content_determined projA projB (by decide)
    (fun s _ => rfl) rfl rfl

end Runveer
